import Mathlib

/-!
Shallow embedding of the Solertia restaurant-management app.

Frontend pages (from `frontend/src/pages/`): the chat page’s message
handling (`Chat.tsx`), the reservations summary counters
(`Reservations.tsx`), the menu filter (`Menu.tsx`) and the CRM
aggregates (`CRM.tsx`) are translated as pure functions of their
inputs (backend responses, search queries, component state).

The conversational backend (orchestrator, pending-action tracker, tool
executor) is not part of the source tree available here; those parts
are modelled from the specification and are marked as such.
-/

namespace Solertia

/-! ## JavaScript string primitives

`String.prototype.toLowerCase` and `String.prototype.trim`, embedded
at the character-list level so they compute by structural recursion. -/

/-- JavaScript `toLowerCase()`: lowercase every character. -/
def jsToLower (s : String) : String := ⟨s.data.map Char.toLower⟩

/-- JavaScript `trim()`: drop whitespace from both ends. -/
def jsTrim (s : String) : String :=
  ⟨((s.data.dropWhile Char.isWhitespace).reverse.dropWhile
      Char.isWhitespace).reverse⟩

/-! ## Chat page (`frontend/src/pages/Chat.tsx`) -/

/-- Message role, from the TS union "user" | "assistant". -/
inductive Role where
  | user
  | assistant
deriving DecidableEq, Repr

/-- The `Message` record of `Chat.tsx`. -/
structure Message where
  id : Nat
  role : Role
  content : String
  timestamp : String
deriving DecidableEq, Repr

/-- One item of the backend history payload (`BackendHistoryItem`). -/
structure BackendHistoryItem where
  role : Role
  content : String
deriving DecidableEq, Repr

/-- The `ChatResponse` record of `Chat.tsx` (lines 32–40): the turn
result as consumed by the UI.  `reservation_data` is the optional
draft snapshot, modelled as a field map. -/
structure ChatResponse where
  response : String
  route : String
  pending_reservation : Bool
  pending_update : Bool
  pending_cancel : Bool
  reservation_data : Option (List (String × String))
  customer_id : String
deriving DecidableEq, Repr

/-- The field names of the `ChatResponse` type, in source order. -/
def chatResponseFields : List String :=
  ["response", "route", "pending_reservation", "pending_update",
   "pending_cancel", "reservation_data", "customer_id"]

/-- The fields the spec’s outbound-TurnResult sentence enumerates:
reply text, route label, the three pending booleans, optional
reservation_data snapshot. -/
def claimedTurnResultFields : List String :=
  ["response", "route", "pending_reservation", "pending_update",
   "pending_cancel", "reservation_data"]

/-- The greeting shown when no history exists. -/
def greetingText : String :=
  "¡Hola! Soy tu asistente de reservaciones. Pregúntame por horarios, disponibilidad o deja que te ayude a crear una reserva."

/-- The greeting `Message` pushed by `loadHistory` when the mapped
history is empty. -/
def greetingMessage (ts : String) : Message :=
  ⟨1, .assistant, greetingText, ts⟩

/-- `loadHistory` success path (`Chat.tsx` lines 73–91): map each
backend item to a `Message` with 1-based id, preserving role and
content; if the mapped list is empty, push the greeting. -/
def loadHistory (history : List BackendHistoryItem) (ts : String) :
    List Message :=
  let mapped := history.mapIdx fun idx m =>
    ({ id := idx + 1, role := m.role, content := m.content,
       timestamp := ts } : Message)
  if mapped.length = 0 then mapped ++ [greetingMessage ts] else mapped

/-- The pending-state note fragments built in `handleSendMessage`
(lines 153–160), in source order. -/
def metaInfoParts (d : ChatResponse) : List String :=
  (if d.pending_reservation then
    ["tengo una reservación pendiente de confirmar"] else []) ++
  (if d.pending_update then
    ["hay una actualización pendiente de reservación"] else []) ++
  (if d.pending_cancel then
    ["hay una cancelación pendiente de confirmar"] else [])

/-- The try-again reply appended when the backend call fails. -/
def errorReplyText : String :=
  "Hubo un problema al conectar con el servidor de chat. Intenta de nuevo en unos momentos."

/-- Outcome of the `fetch` to POST /chat: parsed `ChatResponse` on an
OK response, or a failure (non-OK HTTP status or a network error). -/
inductive FetchOutcome where
  | ok (data : ChatResponse)
  | err (msg : String)
deriving DecidableEq, Repr

/-- `handleSendMessage` (`Chat.tsx` lines 112–188) as a pure function
of the current message list, the input box content, the timestamp and
the backend outcome, returning the message list after the turn. -/
def handleSendMessage (messages : List Message) (input : String)
    (ts : String) (outcome : FetchOutcome) : List Message :=
  if jsTrim input = "" then messages
  else
    let userMessage : Message := ⟨messages.length + 1, .user, input, ts⟩
    let m1 := messages ++ [userMessage]
    match outcome with
    | .ok data =>
      let assistantMessage : Message :=
        ⟨userMessage.id + 1, .assistant, data.response, ts⟩
      let m2 := m1 ++ [assistantMessage]
      if data.pending_reservation || data.pending_update ||
          data.pending_cancel then
        let metaMessage : Message :=
          ⟨assistantMessage.id + 1, .assistant,
            "Nota interna: " ++ String.intercalate ", " (metaInfoParts data)
              ++ ". Completa el flujo desde el WhatsApp/UX correspondiente.",
            ts⟩
        m2 ++ [metaMessage]
      else m2
    | .err _ =>
      let errorMessage : Message :=
        ⟨messages.length + 2, .assistant, errorReplyText, ts⟩
      m1 ++ [errorMessage]

/-! ## Reservations page (`frontend/src/pages/Reservations.tsx`) -/

/-- Reservation status, from the spec and backend rows (a free string
in the TS interface). -/
structure ReservationRow where
  id : Nat
  customer_id : Nat
  date : String
  time : String
  guests : Nat
  status : String
  name : Option String
  phone : Option String
  notes : Option String
  table_number : Option String
deriving DecidableEq, Repr

/-- `totalReservations` (line 85): length of the loaded list. -/
def totalReservations (rs : List ReservationRow) : Nat := rs.length

/-- `confirmedCount` (lines 86–88): rows whose lowercased status is
"confirmed". -/
def confirmedCount (rs : List ReservationRow) : Nat :=
  (rs.filter fun r => jsToLower r.status == "confirmed").length

/-- `pendingCount` (lines 89–91): rows whose lowercased status is
"pending". -/
def pendingCount (rs : List ReservationRow) : Nat :=
  (rs.filter fun r => jsToLower r.status == "pending").length

/-- `totalGuests` (lines 92–95): sum of the guests fields. -/
def totalGuests (rs : List ReservationRow) : Nat :=
  rs.foldl (fun acc r => acc + r.guests) 0

/-- Case-insensitive string equality, the reading level of the claim
about the counters: compare after lowercasing both sides. -/
def ciEq (s t : String) : Bool := jsToLower s == jsToLower t

/-! ## Menu page (`frontend/src/pages/Menu.tsx`) -/

/-- The mapped `MenuItem` record of `Menu.tsx`. -/
structure MenuItem where
  id : String
  name : String
  description : String
  price : ℚ
  category : String
  available : Bool
deriving DecidableEq, Repr

/-- Contiguous-subsequence test on character lists: `sub` occurs as a
contiguous run inside `l`. -/
def containsSeq (l sub : List Char) : Bool :=
  List.isPrefixOf sub l ||
    match l with
    | [] => false
    | _ :: t => containsSeq t sub

/-- JavaScript `String.prototype.includes`: contiguous substring
containment. -/
def jsIncludes (s sub : String) : Bool :=
  containsSeq s.toList sub.toList

/-- `filteredItems` (`Menu.tsx` lines 225–234): keep an item when the
lowercased search query occurs in its lowercased name or description,
and the selected category is "Todos" or equals the item category. -/
def filteredItems (menuItems : List MenuItem)
    (searchQuery selectedCategory : String) : List MenuItem :=
  menuItems.filter fun item =>
    (jsIncludes (jsToLower item.name) (jsToLower searchQuery) ||
      jsIncludes (jsToLower item.description) (jsToLower searchQuery)) &&
    (selectedCategory == "Todos" || item.category == selectedCategory)

/-- The claim-level reading of the search test: the query occurs
case-insensitively in the string. -/
def occursCI (q s : String) : Prop :=
  jsIncludes (jsToLower s) (jsToLower q) = true

instance (q s : String) : Decidable (occursCI q s) := by
  unfold occursCI; infer_instance

/-! ## CRM page (`frontend/src/pages/CRM.tsx`) -/

/-- The `Customer` record of `CRM.tsx`, numeric fields as rationals
where the TS type says `number`. -/
structure CrmCustomer where
  customer_id : Nat
  name : String
  email : Option String
  whatsapp : Option String
  birth_date : Option String
  visits_count : Nat
  last_visit : Option String
  average_ticket : ℚ
  preferences : List String
  allergies : List String
deriving DecidableEq, Repr

/-- `avgTicketGlobal` (`CRM.tsx` lines 68–71): mean of the average
tickets when the customer list is non-empty, else 0. -/
def avgTicketGlobal (customers : List CrmCustomer) : ℚ :=
  if customers.length > 0 then
    customers.foldl (fun acc c => acc + c.average_ticket) 0
      / (customers.length : ℚ)
  else 0

/-! ## Conversational backend core, modelled from the spec

The orchestrator, pending-action tracker and tool executor live in the
backend (`backend/src/core/`), which is not part of the available
source tree; the definitions below are modelled from the
specification’s component design (§4.2, §4.3, §4.5, §6). -/

/-- Modelled from the spec: the kind of a pending reservation
mutation, kind ∈ \x7bcreate, update, cancel\x7d (§3 PendingAction). -/
inductive ActionKind where
  | create
  | update
  | cancel
deriving DecidableEq, Repr

/-- Modelled from the spec: a PendingAction (§3) — customer reference,
kind, slot-map draft, creation timestamp and expiry.  The tracker is
single-slot, so a customer’s pending state is an `Option
PendingAction`. -/
structure PendingAction where
  customer : Nat
  kind : ActionKind
  draft : List (String × String)
  createdAt : Nat
  expiry : Nat
deriving DecidableEq, Repr

/-- Modelled from the spec: the ephemeral TurnResult (§3) — reply
text, route, the three pending booleans and the optional
reservation_data echo. -/
structure TurnResult where
  reply : String
  route : String
  pending_reservation : Bool
  pending_update : Bool
  pending_cancel : Bool
  reservation_data : Option (List (String × String))
deriving DecidableEq, Repr

/-- Modelled from the spec: orchestrator step 7 (§4.5) — the three
pending flags computed from the tracker’s post-turn state,
`pending_reservation` true iff kind = create and state ≠ none,
and likewise for update and cancel. -/
def mkTurnResult (reply route : String)
    (rdata : Option (List (String × String)))
    (p : Option PendingAction) : TurnResult :=
  match p with
  | none =>
    ⟨reply, route, false, false, false, rdata⟩
  | some a =>
    ⟨reply, route, a.kind == .create, a.kind == .update,
      a.kind == .cancel, rdata⟩

/-- Modelled from the spec: reservation status ∈ \x7bpending,
confirmed, cancelled\x7d (§3). -/
inductive ResStatus where
  | pending
  | confirmed
  | cancelled
deriving DecidableEq, Repr

/-- Modelled from the spec: a stored reservation record in the
Reservation Store (§6), slots kept as the draft’s field map. -/
structure StoredReservation where
  id : Nat
  customerId : Nat
  slots : List (String × String)
  status : ResStatus
deriving DecidableEq, Repr

/-- Modelled from the spec: a calendar event mirroring a reservation
(Calendar Adapter, §6). -/
structure CalendarEvent where
  eventId : Nat
  reservationId : Nat
deriving DecidableEq, Repr

/-- Modelled from the spec: the executor’s success payload
`ExecutionResult\x7breservation, calendar_event_id\x7d` (§4.3). -/
structure ExecutionResult where
  reservation : StoredReservation
  calendar_event_id : Option Nat
deriving DecidableEq, Repr

/-- Modelled from the spec: the executor’s error kinds (§7). -/
inductive ExecError where
  | notFound
  | calendarSyncFailure
deriving DecidableEq, Repr

/-- Modelled from the spec: the joint state the executor touches —
the Reservation Store, the Calendar Adapter’s events, and the log of
executed confirmation tokens with their results (idempotency, §4.3). -/
structure ExecState where
  store : List StoredReservation
  calendar : List CalendarEvent
  executedTokens : List (Nat × ExecutionResult)
  nextResId : Nat
  nextEventId : Nat
deriving DecidableEq, Repr

/-- Modelled from the spec: write one slot into a draft,
last-write-wins (§4.2 slot merge). -/
def setSlot (base : List (String × String)) (kv : String × String) :
    List (String × String) :=
  if base.any (fun p => p.1 == kv.1) then
    base.map fun p => if p.1 == kv.1 then kv else p
  else base ++ [kv]

/-- Modelled from the spec: merge a batch of slot values into a draft,
later values overwriting earlier ones. -/
def mergeSlots (base upd : List (String × String)) :
    List (String × String) :=
  upd.foldl setSlot base

/-- Parse a decimal numeral: all characters are digits and the string
is non-empty. -/
def parseNat (s : String) : Option Nat :=
  if s.data ≠ [] ∧ s.data.all Char.isDigit then
    some (s.data.foldl (fun n c => n * 10 + (c.toNat - 48)) 0)
  else none

/-- Modelled from the spec: the target reservation id carried in the
draft’s slots for update/cancel actions (§4.1 slot extraction). -/
def getTargetId (draft : List (String × String)) : Option Nat :=
  (List.lookup "target_id" draft).bind parseNat

/-- Modelled from the spec: the create branch of the Tool Executor
(§4.3).  Storage first (append the new confirmed reservation), then
the calendar event; when the calendar step fails, the compensating
action deletes the just-created reservation and a failure is
returned. -/
def executeCreate (st : ExecState) (token : Nat)
    (draft : List (String × String)) (customerId : Nat)
    (calendarOk : Bool) : ExecState × Except ExecError ExecutionResult :=
  let r : StoredReservation :=
    ⟨st.nextResId, customerId, draft, .confirmed⟩
  let store1 := st.store ++ [r]
  if calendarOk then
    let ev : CalendarEvent := ⟨st.nextEventId, r.id⟩
    let res : ExecutionResult := ⟨r, some ev.eventId⟩
    ({ st with
        store := store1,
        calendar := st.calendar ++ [ev],
        executedTokens := st.executedTokens ++ [(token, res)],
        nextResId := st.nextResId + 1,
        nextEventId := st.nextEventId + 1 }, .ok res)
  else
    let store2 := store1.filter fun q => q.id != r.id
    ({ st with store := store2 }, .error .calendarSyncFailure)

/-- Modelled from the spec: the update mutation proper, given the
found target.  Storage first (overwrite the target’s fields), then
calendar; a calendar failure restores the prior field values and
returns a failure. -/
def executeUpdateGo (st : ExecState) (token : Nat)
    (draft : List (String × String)) (prior : StoredReservation)
    (calendarOk : Bool) : ExecState × Except ExecError ExecutionResult :=
  let updated : StoredReservation :=
    { prior with slots := mergeSlots prior.slots draft }
  let store1 := st.store.map fun r =>
    if r.id == prior.id then updated else r
  if calendarOk then
    let res : ExecutionResult := ⟨updated, none⟩
    ({ st with
        store := store1,
        executedTokens := st.executedTokens ++ [(token, res)] },
      .ok res)
  else
    let store2 := store1.map fun r =>
      if r.id == prior.id then prior else r
    ({ st with store := store2 }, .error .calendarSyncFailure)

/-- Modelled from the spec: the update branch — resolve the target
reservation from the draft’s slots, fail with not-found when absent,
else run the mutation. -/
def executeUpdate (st : ExecState) (token : Nat)
    (draft : List (String × String)) (customerId : Nat)
    (calendarOk : Bool) : ExecState × Except ExecError ExecutionResult :=
  match getTargetId draft with
  | none => (st, .error .notFound)
  | some tid =>
    match st.store.find? (fun r => r.id == tid) with
    | none => (st, .error .notFound)
    | some prior => executeUpdateGo st token draft prior calendarOk

/-- Modelled from the spec: the cancel mutation proper (target found,
not yet cancelled).  Storage first (set status cancelled), then the
calendar event deletion; a calendar failure restores the prior status
and returns a failure. -/
def executeCancelDo (st : ExecState) (token : Nat)
    (prior : StoredReservation) (calendarOk : Bool) :
    ExecState × Except ExecError ExecutionResult :=
  let cancelled : StoredReservation := { prior with status := .cancelled }
  let store1 := st.store.map fun r =>
    if r.id == prior.id then cancelled else r
  if calendarOk then
    let cal1 := st.calendar.filter fun e => e.reservationId != prior.id
    let res : ExecutionResult := ⟨cancelled, none⟩
    ({ st with
        store := store1,
        calendar := cal1,
        executedTokens := st.executedTokens ++ [(token, res)] }, .ok res)
  else
    let store2 := store1.map fun r =>
      if r.id == prior.id then prior else r
    ({ st with store := store2 }, .error .calendarSyncFailure)

/-- Modelled from the spec: cancel with the target in hand — cancel
of an already-cancelled reservation is a no-op success (§4.3), else
the mutation runs. -/
def executeCancelGo (st : ExecState) (token : Nat)
    (prior : StoredReservation) (calendarOk : Bool) :
    ExecState × Except ExecError ExecutionResult :=
  if prior.status == ResStatus.cancelled then
    ({ st with
        executedTokens := st.executedTokens ++ [(token, ⟨prior, none⟩)] },
      .ok ⟨prior, none⟩)
  else executeCancelDo st token prior calendarOk

/-- Modelled from the spec: the cancel branch — resolve the target
reservation from the draft’s slots, fail with not-found when absent,
else run the cancel. -/
def executeCancel (st : ExecState) (token : Nat)
    (draft : List (String × String)) (calendarOk : Bool) :
    ExecState × Except ExecError ExecutionResult :=
  match getTargetId draft with
  | none => (st, .error .notFound)
  | some tid =>
    match st.store.find? (fun r => r.id == tid) with
    | none => (st, .error .notFound)
    | some prior => executeCancelGo st token prior calendarOk

/-- Modelled from the spec: the Tool Executor’s
`execute(kind, draft, customer)` (§4.3).  A token already in the
executed log is a no-op returning the previous result; otherwise the
branch for the action kind runs. -/
def execute (st : ExecState) (token : Nat) (kind : ActionKind)
    (draft : List (String × String)) (customerId : Nat)
    (calendarOk : Bool) : ExecState × Except ExecError ExecutionResult :=
  match List.lookup token st.executedTokens with
  | some prev => (st, .ok prev)
  | none =>
    match kind with
    | .create => executeCreate st token draft customerId calendarOk
    | .update => executeUpdate st token draft customerId calendarOk
    | .cancel => executeCancel st token draft calendarOk

/-- Well-formedness of the executor state: stored ids are below the
fresh-id counter and are pairwise distinct. -/
def WellFormed (st : ExecState) : Prop :=
  (∀ r ∈ st.store, r.id < st.nextResId) ∧
    (st.store.map fun r => r.id).Nodup

/-! ## Helper lemmas -/

/-- Mapping a function that fixes every element of a list is the
identity on that list. -/
theorem map_eq_self_of_fixes {α : Type} {l : List α} {f : α → α}
    (h : ∀ x ∈ l, f x = x) : l.map f = l := by
  induction l with
  | nil => rfl
  | cons a t ih =>
    simp only [List.map_cons, h a (by simp),
      ih fun x hx => h x (by simp [hx])]

/-- The empty sequence occurs in every character list. -/
theorem containsSeq_nil (l : List Char) : containsSeq l [] = true := by
  cases l <;> simp [containsSeq, List.isPrefixOf]

/-- Two pointwise-exclusive filters of one list have lengths summing
to at most the list’s length. -/
theorem length_filter_add_length_filter_le {α : Type} (p q : α → Bool)
    (h : ∀ a, p a = true → q a = false) (l : List α) :
    (l.filter p).length + (l.filter q).length ≤ l.length := by
  induction l with
  | nil => simp
  | cons a t ih =>
    by_cases hpa : p a = true
    · have hqa := h a hpa
      simp [List.filter_cons, hpa, hqa]
      omega
    · have hpa2 : p a = false := by revert hpa; cases p a <;> simp
      by_cases hqa : q a = true
      · simp [List.filter_cons, hpa2, hqa]
        omega
      · have hqa2 : q a = false := by revert hqa; cases q a <;> simp
        simp [List.filter_cons, hpa2, hqa2]
        omega

/-- Appending a fresh key-value pair to an association list makes
lookup of that key find the new value. -/
theorem lookup_append_fresh {β : Type} (l : List (Nat × β)) (k : Nat)
    (v : β) (h : List.lookup k l = none) :
    List.lookup k (l ++ [(k, v)]) = some v := by
  induction l with
  | nil => simp [List.lookup]
  | cons p t ih =>
    rcases p with ⟨k1, v1⟩
    rcases hk : k == k1 with _ | _
    · simp only [List.lookup, hk] at h
      simp only [List.cons_append, List.lookup, hk]
      exact ih h
    · simp [List.lookup, hk] at h

/-- Shape of a successful send: the old messages followed by the user
turn, the assistant turn, and the pending-state note when some pending
flag is set. -/
theorem handleSendMessage_ok_eq (messages : List Message)
    (input ts : String) (data : ChatResponse)
    (htrim : jsTrim input ≠ "") :
    handleSendMessage messages input ts (.ok data) =
      messages ++
        ⟨messages.length + 1, .user, input, ts⟩ ::
        ⟨messages.length + 1 + 1, .assistant, data.response, ts⟩ ::
        (if data.pending_reservation || data.pending_update ||
            data.pending_cancel then
          [⟨messages.length + 1 + 1 + 1, .assistant,
            "Nota interna: " ++
              String.intercalate ", " (metaInfoParts data) ++
              ". Completa el flujo desde el WhatsApp/UX correspondiente.",
            ts⟩]
        else []) := by
  unfold handleSendMessage
  rw [if_neg htrim]
  by_cases hflag : (data.pending_reservation || data.pending_update ||
      data.pending_cancel) = true
  · simp [hflag]
  · have hflag2 : (data.pending_reservation || data.pending_update ||
        data.pending_cancel) = false := by
      revert hflag
      cases data.pending_reservation || data.pending_update ||
        data.pending_cancel <;> simp
    simp [hflag2]

/-- Projections of a mapped history: mapping with an index-dependent
function that preserves role and content leaves the (role, content)
sequence unchanged. -/
theorem mapIdx_proj_eq (l : List BackendHistoryItem) :
    ∀ f : Nat → BackendHistoryItem → Message,
      (∀ i m, (f i m).role = m.role ∧ (f i m).content = m.content) →
      ((l.mapIdx f).map fun m => (m.role, m.content)) =
        l.map fun m => (m.role, m.content) := by
  induction l with
  | nil => intro f _; rfl
  | cons a t ih =>
    intro f hf
    rw [List.mapIdx_cons]
    simp only [List.map_cons]
    rw [(hf 0 a).1, (hf 0 a).2, ih _ fun i m => hf (i + 1) m]

/-- Undoing a by-id overwrite: overwriting the entry whose id matches
`prior.id` with some record carrying that same id, then putting
`prior` back at that id, restores the original store (ids being
unique). -/
theorem map_update_rollback (store : List StoredReservation)
    (prior upd2 : StoredReservation) (hmem : prior ∈ store)
    (hnodup : (store.map fun r => r.id).Nodup)
    (hid : upd2.id = prior.id) :
    ((store.map fun r => if r.id == prior.id then upd2 else r).map
      fun r => if r.id == prior.id then prior else r) = store := by
  rw [List.map_map]
  apply map_eq_self_of_fixes
  intro r hr
  simp only [Function.comp]
  by_cases h : r.id = prior.id
  · have hr2 : r = prior := List.inj_on_of_nodup_map hnodup hr hmem h
    simp [h, hid, hr2]
  · have hbeq : (r.id == prior.id) = false := by simp [h]
    simp [hbeq]

/-! ## Claim theorems -/

/-- C1: in the returned TurnResult, at most one of the three pending
booleans (pending_reservation, pending_update, pending_cancel) is
true at any time, since they are computed from the single-slot
tracker state. -/
theorem turn_result_single_pending (reply route : String)
    (rdata : Option (List (String × String))) (p : Option PendingAction) :
    (mkTurnResult reply route rdata p).pending_reservation.toNat +
        (mkTurnResult reply route rdata p).pending_update.toNat +
        (mkTurnResult reply route rdata p).pending_cancel.toNat ≤ 1 := by
  rcases p with _ | a
  · simp [mkTurnResult]
  · rcases a with ⟨c, k, d, t, e⟩
    cases k <;> simp [mkTurnResult] <;> decide

/-- C4 counterexample: the `ChatResponse` consumed by the UI does not
consist of exactly the six spec-enumerated fields — it also carries
`customer_id`. -/
theorem chat_response_fields_ne_claimed :
    chatResponseFields ≠ claimedTurnResultFields ∧
      "customer_id" ∈ chatResponseFields ∧
      "customer_id" ∉ claimedTurnResultFields := by
  decide

/-- C4 (amended): the turn response consumed by the UI contains
exactly the reply text, the route label, the three pending booleans,
the optional reservation_data snapshot, and additionally the
customer_id echo. -/
theorem chat_response_fields_eq :
    chatResponseFields = claimedTurnResultFields ++ ["customer_id"] :=
  rfl

/-- C5: session history is append-only — handling a sent message only
appends to the message list, every previously recorded turn staying
in place unchanged and in order, and on a successful turn the user
turn and the assistant turn are both appended. -/
theorem chat_session_append_only (messages : List Message)
    (input ts : String) (outcome : FetchOutcome) :
    (∃ s, handleSendMessage messages input ts outcome = messages ++ s) ∧
    (∀ data, outcome = .ok data → jsTrim input ≠ "" →
      ∃ rest, handleSendMessage messages input ts outcome =
        messages ++ ⟨messages.length + 1, .user, input, ts⟩ ::
          ⟨messages.length + 2, .assistant, data.response, ts⟩ :: rest) := by
  have hadd : ∀ n : Nat, n + 1 + 1 = n + 2 := fun n => rfl
  constructor
  · by_cases htrim : jsTrim input = ""
    · exact ⟨[], by simp [handleSendMessage, htrim]⟩
    · rcases outcome with data | emsg
      · exact ⟨_, handleSendMessage_ok_eq messages input ts data htrim⟩
      · refine ⟨⟨messages.length + 1, .user, input, ts⟩ ::
          [⟨messages.length + 2, .assistant, errorReplyText, ts⟩], ?_⟩
        unfold handleSendMessage
        rw [if_neg htrim]
        simp
  · intro data hd htrim
    subst hd
    have h := handleSendMessage_ok_eq messages input ts data htrim
    rw [hadd messages.length] at h
    exact ⟨_, h⟩

/-- C5 witness: a successful send on an empty session appends exactly
the user turn and the assistant turn. -/
theorem chat_session_append_only_witness :
    ∃ rest, handleSendMessage [] "hola" "t0"
        (.ok ⟨"ok", "smalltalk", false, false, false, none,
          "dashboard-demo"⟩) =
      [] ++ (⟨1, .user, "hola", "t0"⟩ : Message) ::
        (⟨2, .assistant, "ok", "t0"⟩ : Message) :: rest :=
  (chat_session_append_only [] "hola" "t0"
    (.ok ⟨"ok", "smalltalk", false, false, false, none,
      "dashboard-demo"⟩)).2 _ rfl (by decide)

/-- C6: when the backend call fails, the turn appends exactly the
user turn and the try-again reply — no assistant answer and no
pending-state note is recorded as if the turn had succeeded. -/
theorem chat_error_turn (messages : List Message)
    (input ts emsg : String) (htrim : jsTrim input ≠ "") :
    handleSendMessage messages input ts (.err emsg) =
      messages ++ [⟨messages.length + 1, .user, input, ts⟩,
        ⟨messages.length + 2, .assistant, errorReplyText, ts⟩] := by
  unfold handleSendMessage
  rw [if_neg htrim]
  simp

/-- C6 witness: a failed send on an empty session records only the
user turn and the try-again reply. -/
theorem chat_error_turn_witness :
    handleSendMessage [] "hola" "t0" (.err "boom") =
      [] ++ [⟨1, .user, "hola", "t0"⟩,
        ⟨2, .assistant, errorReplyText, "t0"⟩] :=
  chat_error_turn [] "hola" "t0" "boom" (by decide)

/-- C7: the rendered history preserves every returned turn in order
with its role and text, applying no truncation; only an empty history
is replaced by the single greeting message. -/
theorem chat_history_rendered (history : List BackendHistoryItem)
    (ts : String) :
    (history = [] → loadHistory history ts = [greetingMessage ts]) ∧
    (history ≠ [] →
      ((loadHistory history ts).map fun m => (m.role, m.content)) =
        (history.map fun m => (m.role, m.content)) ∧
      (loadHistory history ts).length = history.length) := by
  constructor
  · intro h
    subst h
    simp [loadHistory]
  · intro h
    have hlen : (history.mapIdx fun idx m =>
        ({ id := idx + 1, role := m.role, content := m.content,
           timestamp := ts } : Message)).length = history.length :=
      List.length_mapIdx
    have hne : ¬((history.mapIdx fun idx m =>
        ({ id := idx + 1, role := m.role, content := m.content,
           timestamp := ts } : Message)).length = 0) := by
      rw [hlen]
      intro h0
      exact h (List.eq_nil_of_length_eq_zero h0)
    simp only [loadHistory]
    rw [if_neg hne]
    exact ⟨mapIdx_proj_eq history _ fun i m => ⟨rfl, rfl⟩, hlen⟩

/-- C7 witness: a one-turn history is rendered as that turn. -/
theorem chat_history_rendered_witness :
    ((loadHistory [⟨.user, "hola"⟩] "t0").map
        fun m => (m.role, m.content)) =
      (([⟨.user, "hola"⟩] : List BackendHistoryItem).map
        fun m => (m.role, m.content)) ∧
    (loadHistory [⟨.user, "hola"⟩] "t0").length = 1 :=
  (chat_history_rendered [⟨.user, "hola"⟩] "t0").2
    (List.cons_ne_nil _ _)

/-- C8: the Confirmed counter counts exactly the rows whose status is
case-insensitively "confirmed", the Pending counter exactly those
case-insensitively "pending", and their sum never exceeds the total
number of loaded reservations. -/
theorem reservation_counters_correct (rs : List ReservationRow) :
    confirmedCount rs =
      (rs.filter fun r => ciEq r.status "confirmed").length ∧
    pendingCount rs =
      (rs.filter fun r => ciEq r.status "pending").length ∧
    confirmedCount rs + pendingCount rs ≤ totalReservations rs := by
  have hc : jsToLower "confirmed" = "confirmed" := by decide
  have hp : jsToLower "pending" = "pending" := by decide
  refine ⟨?_, ?_, ?_⟩
  · simp only [confirmedCount, ciEq, hc]
  · simp only [pendingCount, ciEq, hp]
  · unfold confirmedCount pendingCount totalReservations
    refine length_filter_add_length_filter_le _ _ ?_ rs
    intro r hr
    have hst : jsToLower r.status = "confirmed" := by
      exact eq_of_beq hr
    rw [hst]
    decide

/-- C9: an item appears in `filteredItems` iff it was fetched, the
query occurs case-insensitively in its name or description, and the
selected category is "Todos" or equals the item’s category; with the
empty query and category "Todos", every fetched item is kept. -/
theorem menu_filter_correct (menuItems : List MenuItem)
    (q cat : String) :
    (∀ item, item ∈ filteredItems menuItems q cat ↔
      item ∈ menuItems ∧
        (occursCI q item.name ∨ occursCI q item.description) ∧
        (cat = "Todos" ∨ item.category = cat)) ∧
    filteredItems menuItems "" "Todos" = menuItems := by
  constructor
  · intro item
    simp only [filteredItems, List.mem_filter, Bool.and_eq_true,
      Bool.or_eq_true, beq_iff_eq, occursCI]
  · unfold filteredItems
    rw [List.filter_eq_self]
    intro item _
    have hemp : jsToLower "" = "" := rfl
    have hdata : ("" : String).data = [] := rfl
    simp [jsIncludes, hemp, hdata, containsSeq_nil]

/-- C10: the CRM global average ticket equals the sum of average
tickets divided by the number of customers when the list is
non-empty, and is exactly 0 on the empty list. -/
theorem crm_avg_ticket_guarded (customers : List CrmCustomer) :
    (customers ≠ [] →
      avgTicketGlobal customers =
        (customers.map fun c => c.average_ticket).sum
          / (customers.length : ℚ)) ∧
    avgTicketGlobal [] = 0 := by
  constructor
  · intro h
    have hlen : 0 < customers.length := List.length_pos.mpr h
    unfold avgTicketGlobal
    rw [if_pos hlen]
    rw [List.sum_eq_foldl, List.foldl_map]
  · rfl

/-- C10 witness: the theorem applied to a concrete one-customer
list. -/
theorem crm_avg_ticket_guarded_witness :
    avgTicketGlobal [⟨1, "Ana", none, none, none, 3, none, 10, [], []⟩] =
      (([⟨1, "Ana", none, none, none, 3, none, 10, [], []⟩] :
          List CrmCustomer).map fun c => c.average_ticket).sum
        / (([⟨1, "Ana", none, none, none, 3, none, 10, [], []⟩] :
            List CrmCustomer).length : ℚ) :=
  (crm_avg_ticket_guarded
    [⟨1, "Ana", none, none, none, 3, none, 10, [], []⟩]).1
    (List.cons_ne_nil _ _)

/-- Replaying an executed token: `execute` short-circuits to the
stored result. -/
theorem execute_eq_replay (st : ExecState) (token : Nat)
    (kind : ActionKind) (draft : List (String × String))
    (customerId : Nat) (calendarOk : Bool) (prev : ExecutionResult)
    (h : List.lookup token st.executedTokens = some prev) :
    execute st token kind draft customerId calendarOk = (st, .ok prev) := by
  unfold execute
  rw [h]

/-- A fresh token dispatches on the action kind. -/
theorem execute_eq_fresh (st : ExecState) (token : Nat)
    (kind : ActionKind) (draft : List (String × String))
    (customerId : Nat) (calendarOk : Bool)
    (h : List.lookup token st.executedTokens = none) :
    execute st token kind draft customerId calendarOk =
      match kind with
      | ActionKind.create => executeCreate st token draft customerId calendarOk
      | ActionKind.update => executeUpdate st token draft customerId calendarOk
      | ActionKind.cancel => executeCancel st token draft calendarOk := by
  unfold execute
  rw [h]

/-- Update with no target id in the draft fails with not-found. -/
theorem executeUpdate_target_none (st : ExecState) (token : Nat)
    (draft : List (String × String)) (customerId : Nat)
    (calendarOk : Bool) (ht : getTargetId draft = none) :
    executeUpdate st token draft customerId calendarOk =
      (st, .error .notFound) := by
  unfold executeUpdate
  rw [ht]

/-- Update whose target id is absent from the store fails with
not-found. -/
theorem executeUpdate_target_missing (st : ExecState) (token : Nat)
    (draft : List (String × String)) (customerId : Nat)
    (calendarOk : Bool) (tid : Nat) (ht : getTargetId draft = some tid)
    (hf : st.store.find? (fun r => r.id == tid) = none) :
    executeUpdate st token draft customerId calendarOk =
      (st, .error .notFound) := by
  unfold executeUpdate
  rw [ht]
  show (match st.store.find? (fun r => r.id == tid) with
    | none => (st, Except.error ExecError.notFound)
    | some p => executeUpdateGo st token draft p calendarOk) =
      (st, Except.error ExecError.notFound)
  rw [hf]

/-- Update with the target found runs the mutation. -/
theorem executeUpdate_target_found (st : ExecState) (token : Nat)
    (draft : List (String × String)) (customerId : Nat)
    (calendarOk : Bool) (tid : Nat) (prior : StoredReservation)
    (ht : getTargetId draft = some tid)
    (hf : st.store.find? (fun r => r.id == tid) = some prior) :
    executeUpdate st token draft customerId calendarOk =
      executeUpdateGo st token draft prior calendarOk := by
  unfold executeUpdate
  rw [ht]
  show (match st.store.find? (fun r => r.id == tid) with
    | none => (st, Except.error ExecError.notFound)
    | some p => executeUpdateGo st token draft p calendarOk) =
      executeUpdateGo st token draft prior calendarOk
  rw [hf]

/-- Cancel with no target id in the draft fails with not-found. -/
theorem executeCancel_target_none (st : ExecState) (token : Nat)
    (draft : List (String × String)) (calendarOk : Bool)
    (ht : getTargetId draft = none) :
    executeCancel st token draft calendarOk = (st, .error .notFound) := by
  unfold executeCancel
  rw [ht]

/-- Cancel whose target id is absent from the store fails with
not-found. -/
theorem executeCancel_target_missing (st : ExecState) (token : Nat)
    (draft : List (String × String)) (calendarOk : Bool) (tid : Nat)
    (ht : getTargetId draft = some tid)
    (hf : st.store.find? (fun r => r.id == tid) = none) :
    executeCancel st token draft calendarOk = (st, .error .notFound) := by
  unfold executeCancel
  rw [ht]
  show (match st.store.find? (fun r => r.id == tid) with
    | none => (st, Except.error ExecError.notFound)
    | some p => executeCancelGo st token p calendarOk) =
      (st, Except.error ExecError.notFound)
  rw [hf]

/-- Cancel with the target found runs the cancel logic. -/
theorem executeCancel_target_found (st : ExecState) (token : Nat)
    (draft : List (String × String)) (calendarOk : Bool) (tid : Nat)
    (prior : StoredReservation) (ht : getTargetId draft = some tid)
    (hf : st.store.find? (fun r => r.id == tid) = some prior) :
    executeCancel st token draft calendarOk =
      executeCancelGo st token prior calendarOk := by
  unfold executeCancel
  rw [ht]
  show (match st.store.find? (fun r => r.id == tid) with
    | none => (st, Except.error ExecError.notFound)
    | some p => executeCancelGo st token p calendarOk) =
      executeCancelGo st token prior calendarOk
  rw [hf]

/-- Cancel of an already-cancelled reservation is a no-op success
that records the token. -/
theorem executeCancelGo_noop (st : ExecState) (token : Nat)
    (prior : StoredReservation) (calendarOk : Bool)
    (hcanc : (prior.status == ResStatus.cancelled) = true) :
    executeCancelGo st token prior calendarOk =
      ({ st with executedTokens :=
          st.executedTokens ++ [(token, ⟨prior, none⟩)] },
        .ok ⟨prior, none⟩) := by
  unfold executeCancelGo
  rw [hcanc]
  simp

/-- Cancel of a not-yet-cancelled reservation runs the mutation. -/
theorem executeCancelGo_do (st : ExecState) (token : Nat)
    (prior : StoredReservation) (calendarOk : Bool)
    (hcanc : (prior.status == ResStatus.cancelled) = false) :
    executeCancelGo st token prior calendarOk =
      executeCancelDo st token prior calendarOk := by
  unfold executeCancelGo
  rw [hcanc]
  simp

/-- A failed create leaves the store unchanged: the compensating
filter deletes exactly the just-created reservation. -/
theorem executeCreate_fail_store (st : ExecState) (token : Nat)
    (draft : List (String × String)) (customerId : Nat)
    (hlt : ∀ r ∈ st.store, r.id < st.nextResId) :
    (executeCreate st token draft customerId false).1.store = st.store := by
  show ((st.store ++
      [(⟨st.nextResId, customerId, draft, ResStatus.confirmed⟩ :
        StoredReservation)]).filter
      fun q => q.id != st.nextResId) = st.store
  rw [List.filter_append]
  have h1 : st.store.filter (fun q => q.id != st.nextResId) = st.store := by
    rw [List.filter_eq_self]
    intro q hq
    simpa using Nat.ne_of_lt (hlt q hq)
  have h2 : List.filter (fun q => q.id != st.nextResId)
      [(⟨st.nextResId, customerId, draft, ResStatus.confirmed⟩ :
        StoredReservation)] = [] := by
    simp
  rw [h1, h2, List.append_nil]

/-- A failed update restores the prior field values, leaving the
store unchanged. -/
theorem executeUpdateGo_fail_store (st : ExecState) (token : Nat)
    (draft : List (String × String)) (prior : StoredReservation)
    (hmem : prior ∈ st.store)
    (hnodup : (st.store.map fun r => r.id).Nodup) :
    (executeUpdateGo st token draft prior false).1.store = st.store := by
  show ((st.store.map fun r => if r.id == prior.id then
      { prior with slots := mergeSlots prior.slots draft } else r).map
      fun r => if r.id == prior.id then prior else r) = st.store
  exact map_update_rollback st.store prior _ hmem hnodup rfl

/-- A failed cancel restores the prior status, leaving the store
unchanged. -/
theorem executeCancelDo_fail_store (st : ExecState) (token : Nat)
    (prior : StoredReservation) (hmem : prior ∈ st.store)
    (hnodup : (st.store.map fun r => r.id).Nodup) :
    (executeCancelDo st token prior false).1.store = st.store := by
  show ((st.store.map fun r => if r.id == prior.id then
      { prior with status := ResStatus.cancelled } else r).map
      fun r => if r.id == prior.id then prior else r) = st.store
  exact map_update_rollback st.store prior _ hmem hnodup rfl

/-- C2: whenever `execute` returns a failure, the Reservation Store
state is unchanged from before the attempt — a calendar failure after
the storage mutation triggers the compensating rollback before the
failure is returned. -/
theorem executor_rollback (st : ExecState) (token : Nat)
    (kind : ActionKind) (draft : List (String × String))
    (customerId : Nat) (calendarOk : Bool) (hwf : WellFormed st)
    (e : ExecError)
    (hfail : (execute st token kind draft customerId calendarOk).2 =
      .error e) :
    (execute st token kind draft customerId calendarOk).1.store =
      st.store := by
  obtain ⟨hlt, hnodup⟩ := hwf
  rcases hlook : List.lookup token st.executedTokens with _ | prev
  · rw [execute_eq_fresh st token kind draft customerId calendarOk hlook]
      at hfail ⊢
    cases kind
    · -- create
      have hfail2 : (executeCreate st token draft customerId calendarOk).2
          = .error e := hfail
      show (executeCreate st token draft customerId calendarOk).1.store
        = st.store
      cases calendarOk
      · exact executeCreate_fail_store st token draft customerId hlt
      · exact Except.noConfusion
          (show Except.ok (⟨⟨st.nextResId, customerId, draft,
              ResStatus.confirmed⟩, some st.nextEventId⟩ :
              ExecutionResult) = Except.error e from hfail2)
    · -- update
      have hfail2 : (executeUpdate st token draft customerId calendarOk).2
          = .error e := hfail
      show (executeUpdate st token draft customerId calendarOk).1.store
        = st.store
      rcases ht : getTargetId draft with _ | tid
      · rw [executeUpdate_target_none st token draft customerId
          calendarOk ht]
      · rcases hf : st.store.find? (fun r => r.id == tid) with _ | prior
        · rw [executeUpdate_target_missing st token draft customerId
            calendarOk tid ht hf]
        · rw [executeUpdate_target_found st token draft customerId
            calendarOk tid prior ht hf] at hfail2 ⊢
          cases calendarOk
          · exact executeUpdateGo_fail_store st token draft prior
              (List.mem_of_find?_eq_some hf) hnodup
          · exact Except.noConfusion
              (show Except.ok (⟨{ prior with
                  slots := mergeSlots prior.slots draft }, none⟩ :
                  ExecutionResult) = Except.error e from hfail2)
    · -- cancel
      have hfail2 : (executeCancel st token draft calendarOk).2
          = .error e := hfail
      show (executeCancel st token draft calendarOk).1.store = st.store
      rcases ht : getTargetId draft with _ | tid
      · rw [executeCancel_target_none st token draft calendarOk ht]
      · rcases hf : st.store.find? (fun r => r.id == tid) with _ | prior
        · rw [executeCancel_target_missing st token draft calendarOk
            tid ht hf]
        · rw [executeCancel_target_found st token draft calendarOk
            tid prior ht hf] at hfail2 ⊢
          by_cases hcanc : (prior.status == ResStatus.cancelled) = true
          · rw [executeCancelGo_noop st token prior calendarOk hcanc]
              at hfail2
            exact Except.noConfusion
              (show Except.ok (⟨prior, none⟩ : ExecutionResult)
                = Except.error e from hfail2)
          · have hcanc2 : (prior.status == ResStatus.cancelled) = false := by
              revert hcanc
              cases prior.status == ResStatus.cancelled <;> simp
            rw [executeCancelGo_do st token prior calendarOk hcanc2]
              at hfail2 ⊢
            cases calendarOk
            · exact executeCancelDo_fail_store st token prior
                (List.mem_of_find?_eq_some hf) hnodup
            · exact Except.noConfusion
                (show Except.ok (⟨{ prior with
                    status := ResStatus.cancelled }, none⟩ :
                    ExecutionResult) = Except.error e from hfail2)
  · rw [execute_eq_replay st token kind draft customerId calendarOk
      prev hlook] at hfail
    exact Except.noConfusion
      (show Except.ok prev = Except.error e from hfail)

/-- C2 witness: a concrete update whose calendar step fails leaves
the one-reservation store unchanged. -/
theorem executor_rollback_witness :
    (execute ⟨[⟨0, 7, [("date", "2025-01-01")], .confirmed⟩], [], [], 1, 1⟩
        5 .update [("target_id", "0"), ("time", "21:00")] 7 false).1.store =
      [⟨0, 7, [("date", "2025-01-01")], .confirmed⟩] :=
  executor_rollback
    ⟨[⟨0, 7, [("date", "2025-01-01")], .confirmed⟩], [], [], 1, 1⟩
    5 .update [("target_id", "0"), ("time", "21:00")] 7 false
    ⟨by decide, by decide⟩ .calendarSyncFailure rfl

/-- C3: a second execute request bearing a token already marked
executed is a no-op returning the stored `ExecutionResult` with the
state untouched (so no second reservation and no store or calendar
mutation); and a fresh token’s successful execution stores its result
under that token, so the replayed answer is the first execution’s
result. -/
theorem executor_idempotent (st : ExecState) (token : Nat)
    (kind : ActionKind) (draft : List (String × String))
    (customerId : Nat) (calendarOk : Bool) :
    (∀ prev, List.lookup token st.executedTokens = some prev →
      execute st token kind draft customerId calendarOk = (st, .ok prev)) ∧
    (∀ r, List.lookup token st.executedTokens = none →
      (execute st token kind draft customerId calendarOk).2 = .ok r →
      List.lookup token
        (execute st token kind draft customerId calendarOk).1.executedTokens
        = some r) := by
  constructor
  · intro prev hprev
    exact execute_eq_replay st token kind draft customerId calendarOk
      prev hprev
  · intro r hnone hok
    rw [execute_eq_fresh st token kind draft customerId calendarOk hnone]
      at hok ⊢
    cases kind
    · -- create
      have hok2 : (executeCreate st token draft customerId calendarOk).2
          = .ok r := hok
      show List.lookup token
        (executeCreate st token draft customerId calendarOk).1.executedTokens
        = some r
      cases calendarOk
      · exact Except.noConfusion
          (show Except.error ExecError.calendarSyncFailure = Except.ok r
            from hok2)
      · have hres : (⟨⟨st.nextResId, customerId, draft,
            ResStatus.confirmed⟩, some st.nextEventId⟩ : ExecutionResult)
            = r :=
          Except.ok.inj (show Except.ok (⟨⟨st.nextResId, customerId,
            draft, ResStatus.confirmed⟩, some st.nextEventId⟩ :
            ExecutionResult) = Except.ok r from hok2)
        show List.lookup token (st.executedTokens ++ [(token,
          (⟨⟨st.nextResId, customerId, draft, ResStatus.confirmed⟩,
            some st.nextEventId⟩ : ExecutionResult))]) = some r
        rw [hres]
        exact lookup_append_fresh st.executedTokens token r hnone
    · -- update
      have hok2 : (executeUpdate st token draft customerId calendarOk).2
          = .ok r := hok
      show List.lookup token
        (executeUpdate st token draft customerId calendarOk).1.executedTokens
        = some r
      rcases ht : getTargetId draft with _ | tid
      · rw [executeUpdate_target_none st token draft customerId
          calendarOk ht] at hok2
        exact Except.noConfusion
          (show Except.error ExecError.notFound = Except.ok r from hok2)
      · rcases hf : st.store.find? (fun r2 => r2.id == tid) with _ | prior
        · rw [executeUpdate_target_missing st token draft customerId
            calendarOk tid ht hf] at hok2
          exact Except.noConfusion
            (show Except.error ExecError.notFound = Except.ok r from hok2)
        · rw [executeUpdate_target_found st token draft customerId
            calendarOk tid prior ht hf] at hok2 ⊢
          cases calendarOk
          · exact Except.noConfusion
              (show Except.error ExecError.calendarSyncFailure
                = Except.ok r from hok2)
          · have hres : (⟨{ prior with
                slots := mergeSlots prior.slots draft }, none⟩ :
                ExecutionResult) = r :=
              Except.ok.inj (show Except.ok (⟨{ prior with
                slots := mergeSlots prior.slots draft }, none⟩ :
                ExecutionResult) = Except.ok r from hok2)
            show List.lookup token (st.executedTokens ++ [(token,
              (⟨{ prior with slots := mergeSlots prior.slots draft },
                none⟩ : ExecutionResult))]) = some r
            rw [hres]
            exact lookup_append_fresh st.executedTokens token r hnone
    · -- cancel
      have hok2 : (executeCancel st token draft calendarOk).2 = .ok r := hok
      show List.lookup token
        (executeCancel st token draft calendarOk).1.executedTokens = some r
      rcases ht : getTargetId draft with _ | tid
      · rw [executeCancel_target_none st token draft calendarOk ht] at hok2
        exact Except.noConfusion
          (show Except.error ExecError.notFound = Except.ok r from hok2)
      · rcases hf : st.store.find? (fun r2 => r2.id == tid) with _ | prior
        · rw [executeCancel_target_missing st token draft calendarOk
            tid ht hf] at hok2
          exact Except.noConfusion
            (show Except.error ExecError.notFound = Except.ok r from hok2)
        · rw [executeCancel_target_found st token draft calendarOk
            tid prior ht hf] at hok2 ⊢
          by_cases hcanc : (prior.status == ResStatus.cancelled) = true
          · rw [executeCancelGo_noop st token prior calendarOk hcanc]
              at hok2 ⊢
            have hres : (⟨prior, none⟩ : ExecutionResult) = r :=
              Except.ok.inj (show Except.ok (⟨prior, none⟩ :
                ExecutionResult) = Except.ok r from hok2)
            show List.lookup token (st.executedTokens ++ [(token,
              (⟨prior, none⟩ : ExecutionResult))]) = some r
            rw [hres]
            exact lookup_append_fresh st.executedTokens token r hnone
          · have hcanc2 : (prior.status == ResStatus.cancelled) = false := by
              revert hcanc
              cases prior.status == ResStatus.cancelled <;> simp
            rw [executeCancelGo_do st token prior calendarOk hcanc2]
              at hok2 ⊢
            cases calendarOk
            · exact Except.noConfusion
                (show Except.error ExecError.calendarSyncFailure
                  = Except.ok r from hok2)
            · have hres : (⟨{ prior with status := ResStatus.cancelled },
                  none⟩ : ExecutionResult) = r :=
                Except.ok.inj (show Except.ok (⟨{ prior with
                  status := ResStatus.cancelled }, none⟩ :
                  ExecutionResult) = Except.ok r from hok2)
              show List.lookup token (st.executedTokens ++ [(token,
                (⟨{ prior with status := ResStatus.cancelled }, none⟩ :
                  ExecutionResult))]) = some r
              rw [hres]
              exact lookup_append_fresh st.executedTokens token r hnone

/-- C3 witness: replaying an already-executed token returns the
stored result and leaves the state identical. -/
theorem executor_idempotent_witness :
    execute ⟨[], [], [(9, ⟨⟨0, 7, [], .confirmed⟩, some 0⟩)], 1, 1⟩ 9
        .create [] 7 true =
      (⟨[], [], [(9, ⟨⟨0, 7, [], .confirmed⟩, some 0⟩)], 1, 1⟩,
        .ok ⟨⟨0, 7, [], .confirmed⟩, some 0⟩) :=
  (executor_idempotent
    ⟨[], [], [(9, ⟨⟨0, 7, [], .confirmed⟩, some 0⟩)], 1, 1⟩
    9 .create [] 7 true).1 _ rfl

end Solertia
